import Mathlib

/-!
Verification of the EMBRACE 1-second magnetometer processing pipeline
(`process_embrace_1secMag`): a shallow embedding of the calibration,
conversion, day-assembly and serialization logic, with theorems settling
the stated properties of each component.

Conventions of the embedding:
* raw channel readings and calibration factors are modelled as rationals
  (the Python floats), with `ℝ` used only where `sqrt`/`tan` appear;
* Python `float('nan')` / pandas missing values are modelled as `Option`;
* calendar dates are modelled as integers (days on a linear timeline),
  since only `≤` comparisons between dates occur in the code;
* exceptions (`KeyError`) are modelled with `Except`, printed diagnostics
  as an output list of message strings.
-/

namespace EmbraceMag

/-! ## Unit converter (`convert_to_hdz`, `process_raw_data.py` lines 24-34,
`magnetometer-converter.py` lines 156-161, and the F computation at
`magnetometer-converter.py` line 296) -/

/-- Slope/offset calibration record: columns `LS, LO, H, D, Z` of
`embrace_solpe_offset_factors.csv`. -/
structure SlopeOffset where
  LS : ℚ
  LO : ℚ
  H : ℚ
  D : ℚ
  Z : ℚ
deriving DecidableEq, Repr

/-- Scaling calibration record: columns `Hs, Hb, Ds, Db, Zs, Zb` of
`embrace_scaling_factors.csv`. -/
structure Scaling where
  Hs : ℚ
  Hb : ℚ
  Ds : ℚ
  Db : ℚ
  Zs : ℚ
  Zb : ℚ
deriving DecidableEq, Repr

/-- `convert_to_hdz(slope, scalling, raw)`: the raw-count to H/D/Z
conversion, transcribed operator-for-operator from the source (the `D`
line reads `... / Ds * 1 / Hb * 3438 / 60 + Db` with Python's
left-associated `*`/`/`). -/
def convert_to_hdz (slope : SlopeOffset) (scaling : Scaling) (raw : ℚ × ℚ × ℚ) :
    ℚ × ℚ × ℚ :=
  ( ((raw.1 * slope.LS + slope.LO + slope.H) / scaling.Hs) + scaling.Hb
  , ((raw.2.1 * slope.LS + slope.LO + slope.D) / scaling.Ds) * 1 / scaling.Hb * 3438 / 60
      + scaling.Db
  , ((raw.2.2 * slope.LS + slope.LO + slope.Z) / scaling.Zs) + scaling.Zb )

/-- `np.radians(x)`: degrees to radians. -/
noncomputable def radians (x : ℝ) : ℝ := x * Real.pi / 180

/-- `F = np.sqrt(H**2 + (H * np.tan(np.radians(D/60)))**2 + Z**2)`
(`magnetometer-converter.py` line 296). -/
noncomputable def computeF (H D Z : ℝ) : ℝ :=
  Real.sqrt (H ^ 2 + (H * Real.tan (radians (D / 60))) ^ 2 + Z ^ 2)

/-! ## Legacy zip member listing
(`deal_with_zip_files.py` lines 11-21, `get_zip_file_contents`).
The archive is modelled by its member-name list; the returned value is the
chosen member name together with the list of diagnostic messages printed. -/

/-- `get_zip_file_contents(zip_path)` from `deal_with_zip_files.py`:
`if len > 0` return the first member (no message); the `elif len > 1`
warning branch follows it; `else` print an error and return `""`. -/
def get_zip_file_contents (file_list : List String) : String × List String :=
  if file_list.length > 0 then
    (file_list.headD "", [])
  else if file_list.length > 1 then
    (file_list.headD "", ["Warning: more than one file in zip file, returning first one"])
  else
    ("", ["Error: no files in zip file"])

/-! ## Calibration resolver
(`process_raw_data.py` lines 5-22, `get_slope_offset_factors`, and the
inline copies at `magnetometer-converter.py` lines 268-284 and
`process_embrace_data.py` lines 62-68.)

Each table is a list of rows in file order; a row carries the station
code, the effective-from date (`Valid_from` / `valid_from_date`) and the
numeric payload.  The source filters by `station == code` and
`valid_from <= day` and takes `.iloc[-1]`, the **last** surviving row in
table order; an empty filter raises (`Option.none` here). -/

/-- One row of a calibration table: station code, effective-from date,
and the numeric payload columns. -/
structure CalRow (π : Type) where
  station : String
  vfrom : ℤ
  payload : π
deriving DecidableEq, Repr

/-- The pandas mask `(tbl["valid_from"] <= day) & (tbl["station"] == code)`
for a single row (pandas `==` on strings is case-sensitive equality). -/
def calMatches {π : Type} (code : String) (d : ℤ) (r : CalRow π) : Bool :=
  r.station == code && decide (r.vfrom ≤ d)

/-- `filtered = tbl[mask]; filtered.iloc[-1]`: the last surviving row,
`none` when the filter is empty (pandas raises `IndexError`). -/
def resolveCal {π : Type} (rows : List (CalRow π)) (code : String) (d : ℤ) :
    Option (CalRow π) :=
  (rows.filter (calMatches code d)).getLast?

/-- `get_slope_offset_factors(aux_path, day, station_code)`: resolves the
slope/offset table and the scaling table independently and returns the
pair (slope first, as in the source). -/
def get_slope_offset_factors (slopeTbl : List (CalRow SlopeOffset))
    (scalingTbl : List (CalRow Scaling)) (day : ℤ) (station_code : String) :
    Option (CalRow SlopeOffset) × Option (CalRow Scaling) :=
  (resolveCal slopeTbl station_code day, resolveCal scalingTbl station_code day)

/-- A slope/offset payload used in the concrete resolver examples. -/
def demoSlope : SlopeOffset := ⟨1, 0, 0, 0, 0⟩

/-- A scaling payload used in the concrete resolver examples. -/
def demoScaling : Scaling := ⟨1, 1, 1, 0, 1, 0⟩

/-- A slope table whose two rows for station `ABC` are listed with the
*newer* effective-from date first (dates 2 then 1). -/
def demoSlopeTable : List (CalRow SlopeOffset) :=
  [⟨"ABC", 2, demoSlope⟩, ⟨"ABC", 1, demoSlope⟩]

/-- A scaling table with the same date-reversed layout as
`demoSlopeTable`. -/
def demoScalingTable : List (CalRow Scaling) :=
  [⟨"ABC", 2, demoScaling⟩, ⟨"ABC", 1, demoScaling⟩]

/-- A slope table sorted ascending by effective-from date (append order). -/
def sortedSlopeTable : List (CalRow SlopeOffset) :=
  [⟨"ABC", 1, demoSlope⟩, ⟨"ABC", 2, demoSlope⟩]

/-- A scaling table sorted ascending by effective-from date. -/
def sortedScalingTable : List (CalRow Scaling) :=
  [⟨"ABC", 1, demoScaling⟩, ⟨"ABC", 2, demoScaling⟩]

/-! ## Day assembler
(`process_embrace_data.py` lines 90-93 and `magnetometer-converter.py`
lines 328-338.)

`fullday = DataFrame({"time": date_range(start=day, periods=86400, freq='s')})`
followed by `fullday.merge(daydata, how="left", on="time")`.  Times are
modelled by the absolute second-of-day `0..86399`; a converted sample is a
`(second, payload)` pair.  A pandas left merge emits, for each left row in
order, one output row per matching right row (in right order), or a single
row with missing values when there is no match. -/

/-- The rows a pandas left merge emits for one grid second `t`: one row
per matching sample, or a single missing row when no sample matches. -/
def mergeRow {α : Type} (data : List (Nat × α)) (t : Nat) : List (Nat × Option α) :=
  let ms := data.filter (fun p => p.1 == t)
  if ms.isEmpty then [(t, none)] else ms.map (fun p => (t, some p.2))

/-- `leftGrid.merge(data, how="left", on="time")`. -/
def mergeOn {α : Type} (grid : List Nat) (data : List (Nat × α)) :
    List (Nat × Option α) :=
  grid.flatMap (mergeRow data)

/-- The per-second grid `pd.date_range(start=day, periods=86400, freq='s')`
as seconds-of-day. -/
def dayGrid : List Nat := List.range 86400

/-- The assembled station-day: the day's converted samples left-merged
onto the 86,400-second grid. -/
def assembleDay {α : Type} (data : List (Nat × α)) : List (Nat × Option α) :=
  mergeOn dayGrid data

/-- Two converted samples claiming the same second of the day. -/
def dupSamples : List (Nat × ℚ) := [(0, 1), (0, 2)]

/-- The per-station-day dispatch of `process_embrace_data.py` lines 54-112:
each found archive either yields an hourly sample list or fails
(`try ... except`); with no archives at all the day is skipped (no output
file, the final `else` only prints); with archives but no usable hourly
record the all-missing full day is written; otherwise the concatenated
hourly data is merged onto the grid. -/
def processDay (archives : List (Option (List (Nat × (ℚ × ℚ × ℚ))))) :
    Option (List (Nat × Option (ℚ × ℚ × ℚ))) :=
  if archives.length > 0 then
    let day_files := archives.filterMap id
    if day_files.length > 0 then
      some (assembleDay day_files.flatten)
    else
      some (dayGrid.map (fun t => (t, none)))
  else
    none

/-! ## Fixed-format serializer
(`magnetometer-converter.py` lines 349-361: the per-second data lines of
the IAGA-2002-like output.)

Python string formatting is modelled over `ℚ`: `f"{x:.6f}"` scales by
10⁶ and rounds to the nearest integer (ties to even, as Python does),
then prints the integer part, a dot, and exactly six fraction digits;
`{s:<w}` pads on the right, `{s:>w}` pads on the left. -/

/-- A run of `n` spaces. -/
def spaces (n : Nat) : String := String.mk (List.replicate n ' ')

/-- Python `f"{s:<w}"`: left-justified, padded on the right to width `w`. -/
def ljust (s : String) (w : Nat) : String := s ++ spaces (w - s.length)

/-- Python `f"{s:>w}"`: right-justified, padded on the left to width `w`. -/
def rjust (s : String) (w : Nat) : String := spaces (w - s.length) ++ s

/-- Python `str.upper()` (ASCII). -/
def pyUpper (s : String) : String := String.mk (s.toList.map Char.toUpper)

/-- Python `str.lower()` (ASCII). -/
def pyLower (s : String) : String := String.mk (s.toList.map Char.toLower)

/-- A two-digit `strftime` field (`%H`, `%M`, `%S`). -/
def pad2 (n : Nat) : String := if n < 10 then "0" ++ Nat.repr n else Nat.repr n

/-- `row['time'].strftime('%Y-%m-%d %H:%M:%S.000')` for the grid time at
second-of-day `sec` of the day `dateStr` (the `%Y-%m-%d` part). -/
def timestampStr (dateStr : String) (sec : Nat) : String :=
  dateStr ++ " " ++ pad2 (sec / 3600) ++ ":" ++ pad2 (sec % 3600 / 60) ++ ":"
    ++ pad2 (sec % 60) ++ ".000"

/-- The decimal digit character for `d < 10`. -/
def digitChar (d : Nat) : Char := Char.ofNat (48 + d)

/-- Nearest integer to `q·s`, ties to even (the rounding Python applies
when formatting a float with a fixed number of decimals). -/
def roundHalfEvenScaled (q : ℚ) (s : ℤ) : ℤ :=
  let x := q * (s : ℚ)
  let fl := Int.fdiv x.num (x.den : ℤ)
  let r : ℚ := x - (fl : ℚ)
  if r < 1 / 2 then fl
  else if 1 / 2 < r then fl + 1
  else if fl % 2 = 0 then fl else fl + 1

/-- The six fraction digits of a scaled value `m < 10⁶` (most significant
first), exactly six characters. -/
def frac6 (m : Nat) : String :=
  String.mk [digitChar (m / 100000 % 10), digitChar (m / 10000 % 10),
    digitChar (m / 1000 % 10), digitChar (m / 100 % 10),
    digitChar (m / 10 % 10), digitChar (m % 10)]

/-- Python `f"{q:.6f}"`. -/
def fixed6 (q : ℚ) : String :=
  let n : ℤ := roundHalfEvenScaled q 1000000
  ((if n < 0 then "-" else "") ++ Nat.repr (n.natAbs / 1000000)) ++ "."
    ++ frac6 (n.natAbs % 1000000)

/-- The two fraction digits of a scaled value, exactly two characters. -/
def frac2 (m : Nat) : String :=
  String.mk [digitChar (m / 10 % 10), digitChar (m % 10)]

/-- Python `f"{q:.2f}"` (used by the header builder). -/
def fixed2 (q : ℚ) : String :=
  let n : ℤ := roundHalfEvenScaled q 100
  ((if n < 0 then "-" else "") ++ Nat.repr (n.natAbs / 100)) ++ "."
    ++ frac2 (n.natAbs % 100)

/-- `f"{row['X']:.6f}" if not pd.isna(row['X']) else "99999.999999"`:
a missing slot renders the sentinel. -/
def fmtField (v : Option ℚ) : String :=
  match v with
  | some q => fixed6 q
  | none => "99999.999999"

/-- One data line,
`f"{timestamp} {doy_str:<6}{h_val:>12} {d_val:>14} {z_val:>14} {f_val:>14}\n"`,
with `doy_str = strftime('%-j')` (no leading zeros). -/
def iagaDataLine (dateStr : String) (sec doy : Nat) (h d z f : Option ℚ) : String :=
  timestampStr dateStr sec ++ " " ++ ljust (Nat.repr doy) 6
    ++ rjust (fmtField h) 12 ++ " " ++ rjust (fmtField d) 14 ++ " "
    ++ rjust (fmtField z) 14 ++ " " ++ rjust (fmtField f) 14 ++ "\n"

/-- The data line as claim C7 words it, with the day-of-year *left-padded*
(right-justified) to width 6; defined from the claim's words only to be
compared against `iagaDataLine`. -/
def iagaDataLineClaimed (dateStr : String) (sec doy : Nat) (h d z f : Option ℚ) : String :=
  timestampStr dateStr sec ++ " " ++ rjust (Nat.repr doy) 6
    ++ rjust (fmtField h) 12 ++ " " ++ rjust (fmtField d) 14 ++ " "
    ++ rjust (fmtField z) 14 ++ " " ++ rjust (fmtField f) 14 ++ "\n"

/-! ## IAGA header builder
(`magnetometer-converter.py` lines 164-208, `create_iaga_header`.)

The station-coordinates dictionary is a keyed list; a Python dict access
that can hit a missing key is modelled with `Except`, the error value
naming the key of the `KeyError`. -/

/-- A full station metadata record, as produced by
`load_station_coordinates` from `station_coordinates.csv`. -/
structure StationRec where
  longitude : ℚ
  latitude : ℚ
  mag_longitude : ℚ
  mag_latitude : ℚ
  l_shell : ℚ
  name : String
deriving DecidableEq, Repr

/-- A Python-dict view of station info: each key may be absent.  The
fallback dict built inline in `create_iaga_header` has only `longitude`,
`latitude` and `name`. -/
structure InfoDict where
  longitude : Option ℚ
  latitude : Option ℚ
  mag_longitude : Option ℚ
  mag_latitude : Option ℚ
  l_shell : Option ℚ
  name : Option String
deriving DecidableEq, Repr

/-- The dict of a full station record: every key present. -/
def toInfoDict (r : StationRec) : InfoDict :=
  ⟨some r.longitude, some r.latitude, some r.mag_longitude, some r.mag_latitude,
    some r.l_shell, some r.name⟩

/-- The inline fallback dict of `create_iaga_header` lines 166-170:
`{'longitude': 0.0, 'latitude': 0.0, 'name': f'{station_code.upper()} Station'}`
— note the missing magnetic/L-shell keys. -/
def defaultInfoDict (station_code : String) : InfoDict :=
  ⟨some 0, some 0, none, none, none, some (pyUpper station_code ++ " Station")⟩

/-- `create_iaga_header(station_code, date, station_info=None)`: builds the
23-line header; a missing dict key raises (`Except.error` with the key).
Accesses happen in source order: `longitude` (line 173), `latitude`
(line 175), `mag_latitude` (177), `mag_longitude` (178), `l_shell` (179),
`name` (182). -/
def create_iaga_header (coords : List (String × StationRec)) (station_code : String)
    (station_info : Option StationRec) : Except String String :=
  let info : InfoDict :=
    match station_info with
    | some r => toInfoDict r
    | none =>
      match (coords.find? (fun p => p.1 == pyLower station_code)).map Prod.snd with
      | some r => toInfoDict r
      | none => defaultInfoDict station_code
  match info.longitude with
  | none => Except.error "longitude"
  | some lon =>
    let lon360 := if lon < 0 then lon + 360 else lon
    match info.latitude with
    | none => Except.error "latitude"
    | some lat =>
      let sloLat := 50 - (fixed2 lat).length
      let sloLon := 50 - (fixed2 lon360).length
      match info.mag_latitude with
      | none => Except.error "mag_latitude"
      | some mlat =>
        let slomLat := 50 - (fixed2 mlat).length
        match info.mag_longitude with
        | none => Except.error "mag_longitude"
        | some mlon =>
          let slomLon := 50 - (fixed2 mlon).length
          match info.l_shell with
          | none => Except.error "l_shell"
          | some lshell =>
            let slomLshel := 50 - (fixed2 lshell).length
            match info.name with
            | none => Except.error "name"
            | some station_name =>
              let upper := pyUpper station_code
              Except.ok
                (" Format                 IAGA-2002                                         |\n"
                ++ " Source of Data         EMBRACE/INPE                                      |\n"
                ++ " Station Name           " ++ ljust station_name 50 ++ "|\n"
                ++ " IAGA CODE              " ++ ljust upper 50 ++ "|\n"
                ++ " Geodetic Latitude      " ++ fixed2 lat ++ spaces sloLat ++ "|\n"
                ++ " Geodetic Longitude     " ++ fixed2 lon360 ++ spaces sloLon ++ "|\n"
                ++ " Magnetic Latitude      " ++ fixed2 mlat ++ spaces slomLat ++ "|\n"
                ++ " Magnetic Longitude     " ++ fixed2 mlon ++ spaces slomLon ++ "|\n"
                ++ " L-shel                 " ++ fixed2 lshell ++ spaces slomLshel ++ "|\n"
                ++ " Elevation              0018                                              |\n"
                ++ " Reported               HDZF                                              |\n"
                ++ " Sensor Orientation     HDZ                                               |\n"
                ++ " Digital Sampling       1 second                                          |\n"
                ++ " Data Interval Type     1-Second (instantaneous)                          |\n"
                ++ " Data Type              provisional                                       |\n"
                ++ " # This data file was constructed by Embrace/INPE.                        |\n"
                ++ " # F is derived from the recorded spot values                             |\n"
                ++ " # and should be applied for quality check only.                          |\n"
                ++ " # DOI citation: https://doi.org/10.1002/2017RS006477                     |\n"
                ++ " # Final data will be available on the online.                            |\n"
                ++ " # Go to http://www.inpe.br/spaceweather for details on obtaining         |\n"
                ++ " # this product.                                                          |\n"
                ++ "DATE       TIME         DOY     " ++ upper ++ "H           "
                ++ upper ++ "D          " ++ upper ++ "Z          " ++ upper ++ "F     |")

/-! ## Archive record extractor: the data-line parse loop
(`magnetometer-converter.py` lines 92-121, inside
`read_text_file_from_zip`.)

A whitespace token of a data line is modelled by what Python's `int()` and
`float()` can make of it: `itok n` parses as both, `ftok q` parses as a
float only, `bad` parses as neither.  A blank line is a line with no
tokens (caught by the `< 6` guard exactly as in the source).  The
`try`/`except` around the eight `append` calls is modelled by keeping the
appends that happened before the first failing conversion. -/

/-- One whitespace-separated token of a data line. -/
inductive Tok where
  | itok (n : ℤ)
  | ftok (q : ℚ)
  | bad
deriving DecidableEq, Repr

/-- Python `int(tok)`: succeeds only on integer literals. -/
def pyInt? (t : Tok) : Option ℤ :=
  match t with
  | .itok n => some n
  | _ => none

/-- Python `float(tok)`: succeeds on integer and float literals. -/
def pyFloat? (t : Tok) : Option ℚ :=
  match t with
  | .itok n => some (n : ℚ)
  | .ftok q => some q
  | .bad => none

/-- The eight per-sample column accumulators of the parse loop. -/
structure Cols where
  HH : List ℤ
  MM : List ℤ
  SS : List ℤ
  h_ch2 : List ℚ
  d_ch4 : List ℚ
  z_ch6 : List ℚ
  t1_ch7 : List (Option ℚ)
  t2_ch8 : List (Option ℚ)
deriving DecidableEq, Repr

/-- The accumulators before any line is parsed. -/
def emptyCols : Cols := ⟨[], [], [], [], [], [], [], []⟩

/-- The first six appends of the loop body, once all six conversions
succeeded. -/
def appendBase (c : Cols) (hh mm ss : ℤ) (h d z : ℚ) : Cols :=
  { c with
    HH := c.HH ++ [hh],
    MM := c.MM ++ [mm],
    SS := c.SS ++ [ss],
    h_ch2 := c.h_ch2 ++ [h],
    d_ch4 := c.d_ch4 ++ [d],
    z_ch6 := c.z_ch6 ++ [z] }

/-- One iteration of the parse loop: skip short (or blank) lines; convert
and append the six mandatory fields in order, aborting the line — but
keeping the appends already made — at the first conversion error; then the
optional temperature tokens (absent → explicit missing, a conversion error
again aborts with the earlier appends kept). -/
def parseLine (cols : Cols) (parts : List Tok) : Cols :=
  if parts.length < 6 then cols
  else
    match pyInt? (parts.getD 0 .bad) with
    | none => cols
    | some hh =>
      match pyInt? (parts.getD 1 .bad) with
      | none => { cols with HH := cols.HH ++ [hh] }
      | some mm =>
        match pyInt? (parts.getD 2 .bad) with
        | none => { cols with HH := cols.HH ++ [hh], MM := cols.MM ++ [mm] }
        | some ss =>
          match pyFloat? (parts.getD 3 .bad) with
          | none =>
            { cols with
              HH := cols.HH ++ [hh],
              MM := cols.MM ++ [mm],
              SS := cols.SS ++ [ss] }
          | some h =>
            match pyFloat? (parts.getD 4 .bad) with
            | none =>
              { cols with
                HH := cols.HH ++ [hh],
                MM := cols.MM ++ [mm],
                SS := cols.SS ++ [ss],
                h_ch2 := cols.h_ch2 ++ [h] }
            | some d =>
              match pyFloat? (parts.getD 5 .bad) with
              | none =>
                { cols with
                  HH := cols.HH ++ [hh],
                  MM := cols.MM ++ [mm],
                  SS := cols.SS ++ [ss],
                  h_ch2 := cols.h_ch2 ++ [h],
                  d_ch4 := cols.d_ch4 ++ [d] }
              | some z =>
                let c6 := appendBase cols hh mm ss h d z
                if parts.length > 6 then
                  match pyFloat? (parts.getD 6 .bad) with
                  | none => c6
                  | some t1v =>
                    let c7 := { c6 with t1_ch7 := c6.t1_ch7 ++ [some t1v] }
                    if parts.length > 7 then
                      match pyFloat? (parts.getD 7 .bad) with
                      | none => c7
                      | some t2v => { c7 with t2_ch8 := c7.t2_ch8 ++ [some t2v] }
                    else { c7 with t2_ch8 := c7.t2_ch8 ++ [none] }
                else
                  let c7 := { c6 with t1_ch7 := c6.t1_ch7 ++ [none] }
                  { c7 with t2_ch8 := c7.t2_ch8 ++ [none] }

/-- The whole parse loop over the data lines of one archive member. -/
def parseDataLines (data_lines : List (List Tok)) : Cols :=
  data_lines.foldl parseLine emptyCols

/-- A six-token data line whose fifth token (the D channel) fails
`float()`: `"1 2 3 4.0 xx 6.0"`. -/
def badLine : List Tok := [.itok 1, .itok 2, .itok 3, .ftok 4, .bad, .ftok 6]

/-! ## Theorems -/

/-! ### Helper lemmas about the resolver -/

theorem calMatches_eq_true {π : Type} {code : String} {d : ℤ} {r : CalRow π} :
    calMatches code d r = true ↔ r.station = code ∧ r.vfrom ≤ d := by
  simp [calMatches, Bool.and_eq_true, decide_eq_true_eq]

theorem head?_filter_eq_find? {α : Type} (p : α → Bool) :
    ∀ l : List α, (l.filter p).head? = l.find? p := by
  intro l
  induction l with
  | nil => rfl
  | cons a t ih =>
    by_cases h : p a = true
    · rw [List.filter_cons_of_pos h, List.find?_cons_of_pos _ h]
      rfl
    · rw [List.filter_cons_of_neg h, List.find?_cons_of_neg _ h]
      exact ih

theorem resolveCal_eq_find?_reverse {π : Type} (rows : List (CalRow π))
    (code : String) (d : ℤ) :
    resolveCal rows code d = rows.reverse.find? (calMatches code d) := by
  unfold resolveCal
  rw [← List.head?_reverse, ← List.filter_reverse, head?_filter_eq_find?]

theorem find?_calMatches_mono {π : Type} (code : String) (d1 d2 : ℤ) (hd : d1 ≤ d2) :
    ∀ (l : List (CalRow π)) (r1 r2 : CalRow π),
      l.find? (calMatches code d1) = some r1 →
      l.find? (calMatches code d2) = some r2 → r1.vfrom ≤ r2.vfrom := by
  intro l
  induction l with
  | nil =>
    intro r1 r2 h1 _
    simp [List.find?] at h1
  | cons a t ih =>
    intro r1 r2 h1 h2
    by_cases hp2 : calMatches code d2 a = true
    · rw [List.find?_cons_of_pos _ hp2] at h2
      injection h2 with h2
      subst h2
      by_cases hp1 : calMatches code d1 a = true
      · rw [List.find?_cons_of_pos _ hp1] at h1
        injection h1 with h1
        subst h1
        exact le_refl _
      · rw [List.find?_cons_of_neg _ hp1] at h1
        obtain ⟨hst, _⟩ := calMatches_eq_true.mp hp2
        have hnot : ¬ (a.vfrom ≤ d1) := fun hle =>
          hp1 (calMatches_eq_true.mpr ⟨hst, hle⟩)
        have hr1 : calMatches code d1 r1 = true := List.find?_some h1
        exact le_of_lt (lt_of_le_of_lt (calMatches_eq_true.mp hr1).2 (lt_of_not_le hnot))
    · have hp1 : ¬ (calMatches code d1 a = true) := fun h => by
        obtain ⟨hst, hle⟩ := calMatches_eq_true.mp h
        exact hp2 (calMatches_eq_true.mpr ⟨hst, le_trans hle hd⟩)
      rw [List.find?_cons_of_neg _ hp1] at h1
      rw [List.find?_cons_of_neg _ hp2] at h2
      exact ih r1 r2 h1 h2

theorem getLast?_pairwise_rel {α : Type} {R : α → α → Prop} :
    ∀ (l : List α) (r : α), l.Pairwise R → l.getLast? = some r →
      ∀ x ∈ l, x = r ∨ R x r := by
  intro l
  induction l with
  | nil =>
    intro r _ h
    cases h
  | cons a t ih =>
    intro r hpw hlast x hx
    obtain ⟨ha, ht⟩ := List.pairwise_cons.mp hpw
    cases t with
    | nil =>
      have hra : a = r := by simpa using hlast
      have hxa : x = a := by simpa using hx
      exact Or.inl (hxa.trans hra)
    | cons b u =>
      rw [List.getLast?_cons_cons] at hlast
      rcases List.mem_cons.mp hx with rfl | hx'
      · exact Or.inr (ha r (List.mem_of_mem_getLast? hlast))
      · exact ih r ht hlast x hx'

theorem resolveCal_sorted_max {π : Type} {rows : List (CalRow π)} {code : String}
    {d : ℤ} {r : CalRow π}
    (hsort : rows.Pairwise (fun a b => a.vfrom ≤ b.vfrom))
    (hres : resolveCal rows code d = some r) :
    r.station = code ∧ r.vfrom ≤ d ∧
      ∀ x ∈ rows, x.station = code → x.vfrom ≤ d → x.vfrom ≤ r.vfrom := by
  have hrmem : r ∈ rows.filter (calMatches code d) :=
    List.mem_of_mem_getLast? hres
  have hrp : calMatches code d r = true := List.of_mem_filter hrmem
  obtain ⟨h1, h2⟩ := calMatches_eq_true.mp hrp
  refine ⟨h1, h2, ?_⟩
  intro x hx hxs hxd
  have hxf : x ∈ rows.filter (calMatches code d) :=
    List.mem_filter.mpr ⟨hx, calMatches_eq_true.mpr ⟨hxs, hxd⟩⟩
  have hpf : (rows.filter (calMatches code d)).Pairwise (fun a b => a.vfrom ≤ b.vfrom) :=
    List.Pairwise.sublist (List.filter_sublist _) hsort
  rcases getLast?_pairwise_rel _ r hpf hres x hxf with rfl | hle
  · exact le_refl _
  · exact hle

/-! ### Helper lemmas about the day assembler -/

theorem mergeOn_nil {α : Type} (data : List (Nat × α)) : mergeOn [] data = [] := rfl

theorem mergeOn_cons {α : Type} (t : Nat) (grid : List Nat) (data : List (Nat × α)) :
    mergeOn (t :: grid) data = mergeRow data t ++ mergeOn grid data :=
  List.flatMap_cons ..

theorem dayGrid_eq_cons : dayGrid = 0 :: (List.range 86399).map Nat.succ := by
  rw [dayGrid, show (86400 : Nat) = 86399 + 1 from rfl, List.range_succ_eq_map]

theorem mergeRow_of_filter_nil {α : Type} {data : List (Nat × α)} {t : Nat}
    (h : data.filter (fun p => p.1 == t) = []) :
    mergeRow data t = [(t, none)] := by
  rw [mergeRow]
  simp [h]

theorem mergeRow_of_filter_ne_nil {α : Type} {data : List (Nat × α)} {t : Nat}
    (h : data.filter (fun p => p.1 == t) ≠ []) :
    mergeRow data t = (data.filter (fun p => p.1 == t)).map (fun p => (t, some p.2)) := by
  cases hms : data.filter (fun p => p.1 == t) with
  | nil => exact absurd hms h
  | cons p ps => simp [mergeRow, hms]

theorem length_mergeOn_of_no_match {α : Type} (data : List (Nat × α)) :
    ∀ grid : List Nat, (∀ t ∈ grid, data.filter (fun p => p.1 == t) = []) →
      (mergeOn grid data).length = grid.length := by
  intro grid
  induction grid with
  | nil => intro _; rfl
  | cons t g ih =>
    intro h
    rw [mergeOn_cons, List.length_append, List.length_cons,
      ih (fun u hu => h u (List.mem_cons_of_mem t hu)),
      mergeRow_of_filter_nil (h t (List.mem_cons_self t g))]
    simp [Nat.add_comm]

theorem filter_key_length_le_one {α : Type} (data : List (Nat × α))
    (h : (data.map Prod.fst).Nodup) (t : Nat) :
    (data.filter (fun p => p.1 == t)).length ≤ 1 := by
  induction data with
  | nil => simp
  | cons p ps ih =>
    rw [List.map_cons, List.nodup_cons] at h
    obtain ⟨hp, hps⟩ := h
    by_cases hpt : (p.1 == t) = true
    · have hnil : ps.filter (fun q => q.1 == t) = [] := by
        rw [List.filter_eq_nil_iff]
        intro q hq hqt
        exact hp (by
          rw [show p.1 = q.1 from (beq_iff_eq.mp hpt).trans (beq_iff_eq.mp hqt).symm]
          exact List.mem_map_of_mem Prod.fst hq)
      simp [List.filter_cons, hpt, hnil]
    · simp only [List.filter_cons, if_neg hpt]
      exact ih hps

theorem mergeOn_map_fst_of_unique {α : Type} (data : List (Nat × α))
    (h : ∀ t, (data.filter (fun p => p.1 == t)).length ≤ 1) :
    ∀ grid : List Nat, (mergeOn grid data).map Prod.fst = grid := by
  intro grid
  induction grid with
  | nil => rfl
  | cons t g ih =>
    rw [mergeOn_cons, List.map_append, ih]
    have hrow : (mergeRow data t).map Prod.fst = [t] := by
      cases hms : data.filter (fun p => p.1 == t) with
      | nil => rw [mergeRow_of_filter_nil hms]; rfl
      | cons p ps =>
        have hlen := h t
        rw [hms, List.length_cons] at hlen
        have hps : ps = [] := List.length_eq_zero.mp (by omega)
        subst hps
        rw [mergeRow_of_filter_ne_nil (by rw [hms]; exact List.cons_ne_nil p []), hms]
        rfl
    rw [hrow]
    rfl

theorem mem_mergeOn_of_mem {α : Type} (data : List (Nat × α)) (t : Nat) (v : α)
    (hv : (t, v) ∈ data) :
    ∀ grid : List Nat, t ∈ grid → (t, some v) ∈ mergeOn grid data := by
  intro grid
  induction grid with
  | nil => intro h; cases h
  | cons g gs ih =>
    intro hg
    rw [mergeOn_cons]
    rcases List.mem_cons.mp hg with rfl | hg'
    · apply List.mem_append_left
      have hmem : (t, v) ∈ data.filter (fun p => p.1 == t) :=
        List.mem_filter.mpr ⟨hv, by simp⟩
      rw [mergeRow_of_filter_ne_nil (List.ne_nil_of_mem hmem)]
      exact List.mem_map_of_mem (fun p => (t, some p.2)) hmem
    · exact List.mem_append_right _ (ih hg')

theorem mergeOn_fst_mem {α : Type} (data : List (Nat × α)) :
    ∀ grid : List Nat, ∀ q ∈ mergeOn grid data, q.1 ∈ grid := by
  intro grid
  induction grid with
  | nil =>
    intro q hq
    cases hq
  | cons t g ih =>
    intro q hq
    rw [mergeOn_cons] at hq
    rcases List.mem_append.mp hq with hq' | hq'
    · by_cases hms : data.filter (fun p => p.1 == t) = []
      · rw [mergeRow_of_filter_nil hms] at hq'
        have hqt : q = (t, none) := by simpa using hq'
        rw [hqt]
        exact List.mem_cons_self t g
      · rw [mergeRow_of_filter_ne_nil hms] at hq'
        obtain ⟨p, _, rfl⟩ := List.mem_map.mp hq'
        exact List.mem_cons_self t g
    · exact List.mem_cons_of_mem t (ih q hq')

theorem mergeRow_dupSamples_zero :
    mergeRow dupSamples 0 = [(0, some 1), (0, some 2)] := by decide

theorem assembleDay_dupSamples_split :
    assembleDay dupSamples
      = mergeRow dupSamples 0 ++ mergeOn ((List.range 86399).map Nat.succ) dupSamples := by
  rw [assembleDay, dayGrid_eq_cons, mergeOn_cons]

theorem dupSamples_no_tail_match :
    ∀ t ∈ (List.range 86399).map Nat.succ,
      dupSamples.filter (fun p => p.1 == t) = [] := by
  intro t ht
  obtain ⟨k, _, rfl⟩ := List.mem_map.mp ht
  rfl

theorem length_mergeOn_tail_dupSamples :
    (mergeOn ((List.range 86399).map Nat.succ) dupSamples).length = 86399 := by
  rw [length_mergeOn_of_no_match dupSamples _ dupSamples_no_tail_match]
  simp only [List.length_map, List.length_range]

/-! ### Claim theorems -/

/-- C1: for every raw sample triple and every slope/scaling record, the
unit converter returns exactly the H, D, Z of the specification formulas
(the D formula written with the grouped factors `(1/Hb)` and `(3438/60)`),
the derived total field is `F = sqrt(H² + (H·tan(radians(D/60)))² + Z²)`,
and the converter is deterministic: equal inputs give equal outputs. -/
theorem C1_unit_converter_formula :
    ∀ (sl : SlopeOffset) (sc : Scaling) (rH rD rZ : ℚ),
      convert_to_hdz sl sc (rH, rD, rZ) =
        ( (rH * sl.LS + sl.LO + sl.H) / sc.Hs + sc.Hb
        , ((rD * sl.LS + sl.LO + sl.D) / sc.Ds) * (1 / sc.Hb) * (3438 / 60) + sc.Db
        , (rZ * sl.LS + sl.LO + sl.Z) / sc.Zs + sc.Zb )
      ∧ (∀ H D Z : ℝ,
          computeF H D Z =
            Real.sqrt (H ^ 2 + (H * Real.tan (radians (D / 60))) ^ 2 + Z ^ 2))
      ∧ (∀ sl' sc' raw', sl = sl' → sc = sc' → (rH, rD, rZ) = raw' →
          convert_to_hdz sl sc (rH, rD, rZ) = convert_to_hdz sl' sc' raw') := by
  intro sl sc rH rD rZ
  refine ⟨?_, fun _ _ _ => rfl, ?_⟩
  · simp only [convert_to_hdz, Prod.mk.injEq]
    exact ⟨trivial, by ring, trivial⟩
  · rintro sl' sc' raw' rfl rfl rfl
    rfl

/-- C1, witness: the determinism part of the theorem applied at the
spec's scenario input `raw = (100, 200, 300)`. -/
theorem C1_unit_converter_formula_witness :
    convert_to_hdz demoSlope demoScaling (100, 200, 300)
      = convert_to_hdz demoSlope demoScaling (100, 200, 300) :=
  (C1_unit_converter_formula demoSlope demoScaling 100 200 300).2.2
    demoSlope demoScaling (100, 200, 300) rfl rfl rfl

/-- C10: the legacy member-listing function returns the first member name
whenever the archive is non-empty (with no diagnostic, its multiple-member
warning branch never being the one that produces the output), and returns
the empty string with an error message when the archive is empty. -/
theorem C10_legacy_zip_listing :
    ∀ file_list : List String,
      (get_zip_file_contents file_list).2 ≠
          ["Warning: more than one file in zip file, returning first one"]
      ∧ (file_list ≠ [] →
          get_zip_file_contents file_list = (file_list.headD "", []))
      ∧ (file_list = [] →
          get_zip_file_contents file_list = ("", ["Error: no files in zip file"])) := by
  intro file_list
  match file_list with
  | [] =>
    refine ⟨?_, fun h => absurd rfl h, fun _ => rfl⟩
    simp [get_zip_file_contents]
  | a :: t =>
    refine ⟨?_, fun _ => ?_, fun h => absurd h (by simp)⟩
    · simp [get_zip_file_contents]
    · simp [get_zip_file_contents]

/-- C10, witness: the theorem applied to a concrete one-member archive and
to the empty archive. -/
theorem C10_legacy_zip_listing_witness :
    (["a.txt"] ≠ ([] : List String)
      ∧ get_zip_file_contents ["a.txt"] = ("a.txt", []))
    ∧ (([] : List String) = []
      ∧ get_zip_file_contents [] = ("", ["Error: no files in zip file"])) :=
  ⟨⟨by decide, (C10_legacy_zip_listing ["a.txt"]).2.1 (by decide)⟩,
   ⟨rfl, (C10_legacy_zip_listing []).2.2 rfl⟩⟩

/-- C2, counterexample: with the two rows for station `ABC` listed newest
first (effective-from dates 2 then 1), resolving at target date 2 returns
the *last-listed* surviving row, whose effective-from date 1 is *not* the
maximum (the surviving first row has date 2).  This refutes the claim that
the resolver returns the row with the maximum effective-from date. -/
theorem C2_resolver_counterexample :
    (get_slope_offset_factors demoSlopeTable demoScalingTable 2 "ABC").1
        = some ⟨"ABC", 1, demoSlope⟩
    ∧ (get_slope_offset_factors demoSlopeTable demoScalingTable 2 "ABC").2
        = some ⟨"ABC", 1, demoScaling⟩
    ∧ (⟨"ABC", 2, demoSlope⟩ : CalRow SlopeOffset)
        ∈ demoSlopeTable.filter (calMatches "ABC" 2)
    ∧ (1 : ℤ) < 2 := by
  refine ⟨?_, ?_, ?_, ?_⟩ <;> decide

/-- C2 (amended): the resolver filters each table to rows whose station
code exactly matches and whose effective-from date is ≤ the target date,
and returns the *last-listed* surviving row; when the table is sorted
non-decreasing by effective-from date (the append order the tables are
maintained in), that row has the maximum effective-from date among the
survivors, ties broken in favour of the last-listed row. -/
theorem C2_resolver_last_listed_max (slopeTbl : List (CalRow SlopeOffset))
    (scalingTbl : List (CalRow Scaling)) (day : ℤ) (code : String)
    (rs : CalRow SlopeOffset) (rc : CalRow Scaling)
    (hs : slopeTbl.Pairwise (fun a b => a.vfrom ≤ b.vfrom))
    (hc : scalingTbl.Pairwise (fun a b => a.vfrom ≤ b.vfrom))
    (h1 : (get_slope_offset_factors slopeTbl scalingTbl day code).1 = some rs)
    (h2 : (get_slope_offset_factors slopeTbl scalingTbl day code).2 = some rc) :
    (rs.station = code ∧ rs.vfrom ≤ day ∧
        ∀ x ∈ slopeTbl, x.station = code → x.vfrom ≤ day → x.vfrom ≤ rs.vfrom)
    ∧ (rc.station = code ∧ rc.vfrom ≤ day ∧
        ∀ x ∈ scalingTbl, x.station = code → x.vfrom ≤ day → x.vfrom ≤ rc.vfrom) :=
  ⟨resolveCal_sorted_max hs h1, resolveCal_sorted_max hc h2⟩

/-- C2 (amended), witness: the amended theorem applied to concrete sorted
tables at target date 2, where the date-2 row is resolved. -/
theorem C2_resolver_last_listed_max_witness :
    (sortedSlopeTable.Pairwise (fun a b => a.vfrom ≤ b.vfrom)
      ∧ sortedScalingTable.Pairwise (fun a b => a.vfrom ≤ b.vfrom)
      ∧ (get_slope_offset_factors sortedSlopeTable sortedScalingTable 2 "ABC").1
          = some ⟨"ABC", 2, demoSlope⟩
      ∧ (get_slope_offset_factors sortedSlopeTable sortedScalingTable 2 "ABC").2
          = some ⟨"ABC", 2, demoScaling⟩)
    ∧ (((⟨"ABC", 2, demoSlope⟩ : CalRow SlopeOffset).station = "ABC"
          ∧ (⟨"ABC", 2, demoSlope⟩ : CalRow SlopeOffset).vfrom ≤ 2
          ∧ ∀ x ∈ sortedSlopeTable, x.station = "ABC" → x.vfrom ≤ 2 →
              x.vfrom ≤ (⟨"ABC", 2, demoSlope⟩ : CalRow SlopeOffset).vfrom)
        ∧ ((⟨"ABC", 2, demoScaling⟩ : CalRow Scaling).station = "ABC"
          ∧ (⟨"ABC", 2, demoScaling⟩ : CalRow Scaling).vfrom ≤ 2
          ∧ ∀ x ∈ sortedScalingTable, x.station = "ABC" → x.vfrom ≤ 2 →
              x.vfrom ≤ (⟨"ABC", 2, demoScaling⟩ : CalRow Scaling).vfrom)) :=
  ⟨⟨by decide, by decide, by decide, by decide⟩,
   C2_resolver_last_listed_max sortedSlopeTable sortedScalingTable 2 "ABC" _ _
     (by decide) (by decide) (by decide) (by decide)⟩

/-- C3: for a fixed set of calibration rows and a fixed station code, if
the resolver succeeds on two target dates `d1 < d2`, the record resolved
for `d2` has an effective-from date ≥ that of the record resolved for
`d1`. -/
theorem C3_resolution_monotone {π : Type} (rows : List (CalRow π)) (code : String)
    (d1 d2 : ℤ) (r1 r2 : CalRow π) (h12 : d1 < d2)
    (h1 : resolveCal rows code d1 = some r1)
    (h2 : resolveCal rows code d2 = some r2) :
    r1.vfrom ≤ r2.vfrom := by
  rw [resolveCal_eq_find?_reverse] at h1 h2
  exact find?_calMatches_mono code d1 d2 (le_of_lt h12) rows.reverse r1 r2 h1 h2

/-- C3, witness: the monotonicity theorem applied to a concrete table at
target dates 1 < 2. -/
theorem C3_resolution_monotone_witness :
    ((1 : ℤ) < 2
      ∧ resolveCal sortedSlopeTable "ABC" 1 = some ⟨"ABC", 1, demoSlope⟩
      ∧ resolveCal sortedSlopeTable "ABC" 2 = some ⟨"ABC", 2, demoSlope⟩)
    ∧ (⟨"ABC", 1, demoSlope⟩ : CalRow SlopeOffset).vfrom
        ≤ (⟨"ABC", 2, demoSlope⟩ : CalRow SlopeOffset).vfrom :=
  ⟨⟨by decide, by decide, by decide⟩,
   C3_resolution_monotone sortedSlopeTable "ABC" 1 2 _ _
     (by decide) (by decide) (by decide)⟩

/-- C4, counterexample: when two hourly samples claim the same second of
the day, the pandas-style left merge emits one output row per duplicate,
so the assembled day has 86,401 rows, not 86,400.  This refutes the claim
that the assembled day always has exactly 86,400 rows. -/
theorem C4_counterexample : (assembleDay dupSamples).length ≠ 86400 := by
  rw [assembleDay_dupSamples_split, List.length_append, mergeRow_dupSamples_zero,
    length_mergeOn_tail_dupSamples]
  simp only [List.length_cons, List.length_nil]
  omega

/-- C4 (amended): whenever no two contributing samples share a timestamp
(zero, one or several hourly records without same-second collisions), the
assembled day has exactly 86,400 rows whose seconds are precisely
`0..86399` in order, no second appearing twice; with same-second
collisions the merge instead emits one row per colliding sample. -/
theorem C4_assembly_unique_when_no_dup {α : Type} (data : List (Nat × α))
    (h : (data.map Prod.fst).Nodup) :
    (assembleDay data).length = 86400
    ∧ (assembleDay data).map Prod.fst = dayGrid
    ∧ ((assembleDay data).map Prod.fst).Nodup := by
  have hkeys : (assembleDay data).map Prod.fst = dayGrid :=
    mergeOn_map_fst_of_unique data (filter_key_length_le_one data h) dayGrid
  refine ⟨?_, hkeys, ?_⟩
  · have hlen := congrArg List.length hkeys
    rw [List.length_map] at hlen
    rw [show (86400 : Nat) = dayGrid.length from by rw [dayGrid, List.length_range]]
    exact hlen
  · rw [hkeys, dayGrid]
    exact List.nodup_range 86400

/-- C4 (amended), witness: a single sample at second 0 has duplicate-free
timestamps, and the theorem yields the full 86,400-slot day for it. -/
theorem C4_assembly_unique_when_no_dup_witness :
    (([((0 : Nat), (5 : ℚ))].map Prod.fst).Nodup)
    ∧ ((assembleDay [((0 : Nat), (5 : ℚ))]).length = 86400
      ∧ (assembleDay [((0 : Nat), (5 : ℚ))]).map Prod.fst = dayGrid
      ∧ ((assembleDay [((0 : Nat), (5 : ℚ))]).map Prod.fst).Nodup) :=
  ⟨by decide, C4_assembly_unique_when_no_dup [((0 : Nat), (5 : ℚ))] (by decide)⟩

/-- C5, counterexample: with two hourly samples both claiming second 0
(values 1 then 2), the assembled day's rows for second 0 are
`[(0, some 1), (0, some 2)]` — the earlier-processed value is still there,
followed by the later one — and not the single overwritten row
`[(0, some 2)]` that last-write-wins would produce. -/
theorem C5_counterexample :
    (assembleDay dupSamples).filter (fun p => p.1 == 0) = [(0, some 1), (0, some 2)]
    ∧ ([((0 : Nat), some (1 : ℚ)), (0, some 2)] : List (Nat × Option ℚ))
        ≠ [(0, some 2)] := by
  constructor
  · rw [assembleDay_dupSamples_split, List.filter_append]
    have h1 : (mergeRow dupSamples 0).filter (fun p => p.1 == 0)
        = [(0, some 1), (0, some 2)] := by decide
    have h2 : (mergeOn ((List.range 86399).map Nat.succ) dupSamples).filter
        (fun p => p.1 == 0) = [] := by
      rw [List.filter_eq_nil_iff]
      intro q hq hq0
      obtain ⟨k, _, hk⟩ := List.mem_map.mp (mergeOn_fst_mem dupSamples _ q hq)
      exact Nat.succ_ne_zero k (hk.trans (beq_iff_eq.mp hq0))
    rw [h1, h2, List.append_nil]
  · decide

/-- C5 (amended): the assembler never overwrites: every sample `(t, v)`
with `t` a valid second of the day contributes its own row `(t, some v)`
to the assembled day, so two hourly records claiming the same second both
keep their values (as two rows) instead of the later one replacing the
earlier. -/
theorem C5_no_overwrite {α : Type} (data : List (Nat × α)) (t : Nat) (v : α)
    (ht : t < 86400) (hv : (t, v) ∈ data) :
    (t, some v) ∈ assembleDay data :=
  mem_mergeOn_of_mem data t v hv dayGrid (by rw [dayGrid]; exact List.mem_range.mpr ht)

/-- C5 (amended), witness: both colliding samples of `dupSamples` appear
in the assembled day. -/
theorem C5_no_overwrite_witness :
    ((0 : Nat) < 86400 ∧ ((0 : Nat), (1 : ℚ)) ∈ dupSamples
      ∧ ((0 : Nat), (2 : ℚ)) ∈ dupSamples)
    ∧ ((0 : Nat), some (1 : ℚ)) ∈ assembleDay dupSamples
    ∧ ((0 : Nat), some (2 : ℚ)) ∈ assembleDay dupSamples :=
  ⟨⟨by decide, by decide, by decide⟩,
   C5_no_overwrite dupSamples 0 1 (by decide) (by decide),
   C5_no_overwrite dupSamples 0 2 (by decide) (by decide)⟩

/-- C6, counterexample: a station-day with zero archives found produces
*no* output at all (the source hits `else: print(...)` and writes no
file), refuting the claim that an output file with 86,400 sentinel rows is
still produced. -/
theorem C6_counterexample : processDay [] = none := rfl

/-- C6 (amended): a station-day with zero archives found is skipped with
no output file; it is when archives exist but *zero of them yield a
usable hourly record* that the pipeline still writes an output day whose
86,400 rows all carry the missing marker. -/
theorem C6_empty_day_output (archives : List (Option (List (Nat × (ℚ × ℚ × ℚ)))))
    (hne : archives ≠ []) (hfail : archives.filterMap id = []) :
    processDay archives = some (dayGrid.map (fun t => (t, none)))
    ∧ (dayGrid.map (fun t => ((t : Nat), (none : Option (ℚ × ℚ × ℚ))))).length = 86400
    ∧ ∀ r ∈ dayGrid.map (fun t => ((t : Nat), (none : Option (ℚ × ℚ × ℚ)))),
        r.2 = none := by
  have hlen : archives.length > 0 := List.length_pos.mpr hne
  refine ⟨?_, ?_, ?_⟩
  · simp [processDay, hfail, hlen]
  · simp [dayGrid]
  · intro r hr
    obtain ⟨t, _, rfl⟩ := List.mem_map.mp hr
    rfl

/-- C6 (amended), witness: one archive that fails to parse yields the
all-missing assembled day. -/
theorem C6_empty_day_output_witness :
    (([none] : List (Option (List (Nat × (ℚ × ℚ × ℚ))))) ≠ []
      ∧ List.filterMap id ([none] : List (Option (List (Nat × (ℚ × ℚ × ℚ))))) = [])
    ∧ (processDay [none] = some (dayGrid.map (fun t => (t, none)))
      ∧ (dayGrid.map (fun t => ((t : Nat), (none : Option (ℚ × ℚ × ℚ))))).length = 86400
      ∧ ∀ r ∈ dayGrid.map (fun t => ((t : Nat), (none : Option (ℚ × ℚ × ℚ)))),
          r.2 = none) :=
  ⟨⟨by simp, rfl⟩, C6_empty_day_output [none] (by simp) rfl⟩

/-! ### Helper lemmas about the serializer's number formatting -/

theorem digitChar_isDigit (d : Nat) (hd : d < 10) : (digitChar d).isDigit = true := by
  interval_cases d <;> decide

theorem frac6_toList (m : Nat) :
    (frac6 m).toList = [digitChar (m / 100000 % 10), digitChar (m / 10000 % 10),
      digitChar (m / 1000 % 10), digitChar (m / 100 % 10),
      digitChar (m / 10 % 10), digitChar (m % 10)] := rfl

theorem frac6_toList_length (m : Nat) : (frac6 m).toList.length = 6 := rfl

theorem frac6_all_digits (m : Nat) : (frac6 m).toList.all Char.isDigit = true := by
  have h : ∀ x : Nat, (digitChar (x % 10)).isDigit = true := fun x =>
    digitChar_isDigit _ (Nat.mod_lt _ (by norm_num))
  rw [frac6_toList]
  simp [List.all_cons, h]

theorem toList_append (s t : String) : (s ++ t).toList = s.toList ++ t.toList :=
  String.data_append s t

theorem fixed6_six_decimals (q : ℚ) :
    ((fixed6 q).toList.reverse.take 6).all Char.isDigit = true
    ∧ ((fixed6 q).toList.reverse.drop 6).head? = some '.' := by
  obtain ⟨pre, m, hpm⟩ : ∃ (pre : String) (m : Nat),
      fixed6 q = (pre ++ ".") ++ frac6 m := ⟨_, _, rfl⟩
  have hrev : (fixed6 q).toList.reverse
      = (frac6 m).toList.reverse ++ ('.' :: pre.toList.reverse) := by
    rw [hpm, toList_append, toList_append, List.reverse_append, List.reverse_append]
    rfl
  have hlen : ((frac6 m).toList.reverse).length = 6 := by
    rw [List.length_reverse]
    exact frac6_toList_length m
  constructor
  · rw [hrev, show (6 : Nat) = ((frac6 m).toList.reverse).length from hlen.symm,
      List.take_left]
    rw [List.all_reverse]
    exact frac6_all_digits m
  · rw [hrev, show (6 : Nat) = ((frac6 m).toList.reverse).length from hlen.symm,
      List.drop_left]
    rfl

/-- C7, counterexample: at a concrete row (day-of-year 131, all channels
missing) the rendered line differs from the line the claim describes,
because the source left-justifies the day-of-year (`{doy_str:<6}`, padding
on the right) while the claim says it is left-padded. -/
theorem C7_counterexample :
    iagaDataLine "2024-05-10" 0 131 none none none none
      ≠ iagaDataLineClaimed "2024-05-10" 0 131 none none none none := by
  decide

/-- C7 (amended): each data line is the timestamp
`YYYY-MM-DD HH:MM:SS.000`, a space, the day-of-year *left-justified*
(padded on the right with spaces) to width 6, then the H, D, Z, F fields
right-justified to widths 12, 14, 14, 14, each of the last three preceded
by one space; a missing value renders the literal sentinel
`99999.999999`, and a present value renders with exactly six digits after
the final decimal point. -/
theorem C7_line_format (dateStr : String) (sec doy : Nat) (h d z f : Option ℚ) :
    iagaDataLine dateStr sec doy h d z f
      = timestampStr dateStr sec ++ " "
        ++ (Nat.repr doy ++ spaces (6 - (Nat.repr doy).length))
        ++ (spaces (12 - (fmtField h).length) ++ fmtField h) ++ " "
        ++ (spaces (14 - (fmtField d).length) ++ fmtField d) ++ " "
        ++ (spaces (14 - (fmtField z).length) ++ fmtField z) ++ " "
        ++ (spaces (14 - (fmtField f).length) ++ fmtField f) ++ "\n"
    ∧ fmtField none = "99999.999999"
    ∧ ∀ q : ℚ, ((fixed6 q).toList.reverse.take 6).all Char.isDigit = true
        ∧ ((fixed6 q).toList.reverse.drop 6).head? = some '.' :=
  ⟨rfl, rfl, fun q => fixed6_six_decimals q⟩

/-- C8: serializing a day for a station absent from the metadata table
*fails* — the fallback dict `{'longitude': 0.0, 'latitude': 0.0, 'name':
...}` lacks the `mag_latitude` key the header builder reads next, so the
call raises `KeyError('mag_latitude')` instead of producing a header; the
fallback name is also `"XYZ Station"`, not the bare uppercased code. -/
theorem C8_missing_metadata_raises :
    create_iaga_header [] "xyz" none = Except.error "mag_latitude"
    ∧ (defaultInfoDict "xyz").name = some "XYZ Station"
    ∧ "XYZ Station" ≠ "XYZ" :=
  ⟨rfl, by decide, by decide⟩

/-- C9: a six-token data line whose fifth token fails `float()` leaves the
eight column arrays with *unequal* lengths — `HH`, `MM`, `SS` and the H
channel keep their appended entries while the D/Z/temperature arrays get
none — refuting the equal-length invariant the claim states for records
with malformed skipped lines. -/
theorem C9_unequal_column_lengths :
    (parseDataLines [badLine]).HH.length = 1
    ∧ (parseDataLines [badLine]).MM.length = 1
    ∧ (parseDataLines [badLine]).SS.length = 1
    ∧ (parseDataLines [badLine]).h_ch2.length = 1
    ∧ (parseDataLines [badLine]).d_ch4.length = 0
    ∧ (parseDataLines [badLine]).z_ch6.length = 0
    ∧ (parseDataLines [badLine]).t1_ch7.length = 0
    ∧ (parseDataLines [badLine]).t2_ch8.length = 0
    ∧ (parseDataLines [badLine]).HH.length ≠ (parseDataLines [badLine]).d_ch4.length := by
  refine ⟨?_, ?_, ?_, ?_, ?_, ?_, ?_, ?_, ?_⟩ <;> decide

end EmbraceMag
